import Mathlib

/-!
Shallow embedding of src/geartrain.js from finngineering/changegears.

JavaScript numbers are modelled as rationals (`ℚ`), arrays as lists, and the
mutable engine object (`GearTrainPermutations`) as a record threaded through
the step functions.  Counters are modelled as integers.  Every definition in
the first part of the file is translated directly from the source; spec-side
reference definitions (used to compare against the source behaviour) are
clearly marked as such.
-/

/-- Shaft class: a shaft containing either one or two gears where both rotate
at the same speed (src/geartrain.js lines 16-34). -/
structure Shaft where
  gearCount : Nat
  inputGear : ℚ
  outputGear : ℚ
  spacerSize : ℚ
deriving DecidableEq, Repr

instance : Inhabited Shaft := ⟨⟨1, 0, 0, 0⟩⟩

/-- Shaft constructor.  If outputGear is 0 the shaft has only one gear, defined
by inputGear; a gear of size spacerSize is then used for interference
calculations with other shafts. -/
def Shaft.make (inputGear : ℚ := 0) (outputGear : ℚ := 0) (spacerSize : ℚ := 0) : Shaft :=
  if 0 < outputGear then
    { gearCount := 2, inputGear := inputGear, outputGear := outputGear, spacerSize := spacerSize }
  else
    { gearCount := 1, inputGear := inputGear, outputGear := inputGear, spacerSize := spacerSize }

/-- Distance between the meshing gears of two adjacent shafts
(src/geartrain.js line 41). -/
def meshingDistance (input output : Shaft) : ℚ :=
  input.outputGear + output.inputGear

/-- Distance required between the non-meshing gears of two adjacent shafts,
taking into account that the teeth (addendum) must clear each other
(src/geartrain.js lines 45-59). -/
def nonMeshingDistance (input output : Shaft) (addendum : ℚ) : ℚ :=
  (if input.gearCount = 1 then input.spacerSize else input.inputGear)
    + (if output.gearCount = 1 then output.spacerSize else output.outputGear)
    + 2 * addendum

/-- Interference check between two shafts (src/geartrain.js lines 39-64):
there is interference when the distance required for the non-meshing gears is
larger than the distance of the meshing ones.  The source default addendum is
1.25. -/
def shaftsInterfere (input output : Shaft) (addendum : ℚ := 5 / 4) : Prop :=
  meshingDistance input output < nonMeshingDistance input output addendum

instance (input output : Shaft) (addendum : ℚ) :
    Decidable (shaftsInterfere input output addendum) :=
  inferInstanceAs (Decidable (_ < _))

/-- GearTrain record: an ordered list of shafts plus the derived fields the
constructor computes (src/geartrain.js lines 68-120).  For an empty shaft list
the source leaves numerator, denominator and maxForce unset; they are given
placeholder values 1, 1 and 0 here (no claim touches them on an empty train). -/
structure GearTrain where
  shafts : List Shaft
  outputMultiplier : ℚ
  numerator : ℚ
  denominator : ℚ
  maxForce : ℚ
deriving DecidableEq, Repr

instance : Inhabited GearTrain := ⟨⟨[], -1, 1, 1, 0⟩⟩

/-- Consecutive shaft pairs: element i of the result is
(shafts[i], shafts[i+1]), matching the loops running over index i from 1 with
accesses to shafts[i-1] and shafts[i]. -/
def shaftPairs (shafts : List Shaft) : List (Shaft × Shaft) :=
  shafts.zip shafts.tail

/-- Loop body of updateOutputMultiplier (src/geartrain.js lines 86-90): the
running product of shafts[i-1].outputGear / shafts[i].inputGear. -/
def outputMultiplierLoop (shafts : List Shaft) : ℚ :=
  ((shaftPairs shafts).map (fun p => p.1.outputGear / p.2.inputGear)).foldl (· * ·) 1

/-- Numerator computed by updateOutputFraction (src/geartrain.js lines 97-104):
the product of shafts[i-1].outputGear over i from 1. -/
def fractionNumerator (shafts : List Shaft) : ℚ :=
  ((shaftPairs shafts).map (fun p => p.1.outputGear)).foldl (· * ·) 1

/-- Denominator computed by updateOutputFraction (src/geartrain.js lines
97-104): the product of shafts[i].inputGear over i from 1. -/
def fractionDenominator (shafts : List Shaft) : ℚ :=
  ((shaftPairs shafts).map (fun p => p.2.inputGear)).foldl (· * ·) 1

/-- Loop of updateMaxForce (src/geartrain.js lines 112-119), walking the
shafts from index 1 while accumulating the torque and the running maximum
force. -/
def maxForceAux : List Shaft → Shaft → ℚ → ℚ → ℚ
  | [], _, _, maxF => maxF
  | s :: rest, prev, torque, maxF =>
    let torque2 := torque * (s.inputGear / prev.outputGear)
    let maxF2 := max (max maxF (torque2 / s.inputGear)) (torque2 / s.outputGear)
    maxForceAux rest s torque2 maxF2

/-- The updateMaxForce method (src/geartrain.js lines 109-120).  The source
reads shafts[0] unconditionally; it is only ever invoked on a non-empty shaft
list (the GearTrain constructor guards the call), so the empty case uses a
placeholder 0. -/
def updateMaxForce (shafts : List Shaft) : ℚ :=
  match shafts with
  | [] => 0
  | s0 :: rest => maxForceAux rest s0 1 (1 / s0.inputGear)

/-- GearTrain constructor (src/geartrain.js lines 69-84).  The constructor
copies the shafts by value, sets outputMultiplier to -1, and for a non-empty
list calls updateOutputMultiplier, which computes the ratio product, then
updateMaxForce, then updateOutputFraction; the latter overwrites
outputMultiplier with numerator / denominator, so that quotient is the stored
final value. -/
def GearTrain.make (shafts : List Shaft) : GearTrain :=
  match shafts with
  | [] => { shafts := [], outputMultiplier := -1, numerator := 1, denominator := 1, maxForce := 0 }
  | _ :: _ =>
    { shafts := shafts,
      outputMultiplier := fractionNumerator shafts / fractionDenominator shafts,
      numerator := fractionNumerator shafts,
      denominator := fractionDenominator shafts,
      maxForce := updateMaxForce shafts }

/-- The shaftDistance method (src/geartrain.js lines 123-145): distance
between the firstShaft and lastShaft, given a specific module.  The source
compares firstShaft against this.shafts.length - 2 with JavaScript number
semantics, so the subtraction is taken over ℤ here; the loop runs i from
firstShaft + 1 while i < lastShaft, accessing shafts[i - 1]. -/
def GearTrain.shaftDistance (t : GearTrain) (module : ℚ) (firstShaft : Nat := 0)
    (lastShaft : Int := -1) : ℚ :=
  if (firstShaft : Int) > (t.shafts.length : Int) - 2 then 0
  else
    let last : Int := if lastShaft = -1 then (t.shafts.length : Int) else lastShaft
    ((List.range (last - ((firstShaft : Int) + 1)).toNat).map (fun k =>
      ((t.shafts.getD (firstShaft + k) default).outputGear * module
        + (t.shafts.getD (firstShaft + k) default).inputGear * module) / 2)).sum

/-- Comparator for gear trains (src/geartrain.js lines 167-175).  The source
also computes two local products size1 and size2 from a field named nominator
that no other code ever assigns (the populated field is numerator), and never
uses them; those dead locals are omitted.  The returned value is
dev1 - dev2 when that difference is nonzero (JavaScript truthiness of the
first operand of the or-operator), else a.maxForce - b.maxForce. -/
def compareGearTrains (a b : GearTrain) (desiredOutputMultiplier : ℚ := 1) : ℚ :=
  let dev1 := |a.outputMultiplier - desiredOutputMultiplier|
  let dev2 := |b.outputMultiplier - desiredOutputMultiplier|
  if dev1 - dev2 = 0 then a.maxForce - b.maxForce else dev1 - dev2

/-- The calculatePermutationCount method (src/geartrain.js lines 209-224):
the amount of possible permutations, given that each shaft can have either
one or two gears.  The gear count is an arbitrary JavaScript number (the
recursion feeds it values below zero), so it is modelled as ℤ.  The source
function does not terminate when called with shaftCount below 1 (the
recursion only stops at shaftCount == 1); the engine only calls it with
shaftCount at least 1, and the unreachable 0 case is a placeholder. -/
def calculatePermutationCount : Nat → Int → Int
  | 0, _ => 0
  | 1, gearCount => gearCount
  | shaftCount + 2, gearCount =>
    gearCount * calculatePermutationCount (shaftCount + 1) (gearCount - 1)
      + gearCount * (gearCount - 1) * calculatePermutationCount (shaftCount + 1) (gearCount - 2)

/-- PermutationStackFrame (src/geartrain.js lines 177-185).  The source frame
also stores a shafts field, but every creation site passes the engine's own
shafts array (so the field always aliases this.shafts) and every read and
write of shaft data inside iterateShafts goes through this.shafts, so that
field carries no information and is not represented. -/
structure PermutationStackFrame where
  availableGears : List ℚ
  currentShaft : Nat
  inputIndex : Nat
  outputIndex : Nat
deriving DecidableEq, Repr

/-- GearTrainPermutations engine object (src/geartrain.js lines 190-433).
The first ten fields are initialised by the constructor (lines 191-205); the
remaining ones are assigned by the caller or by setupCalculation before use.
Counters are JavaScript numbers that only ever hold integers, modelled as ℤ. -/
structure GearTrainPermutations where
  shaftCount : Nat
  shafts : List Shaft
  changeGearSet : List ℚ
  spacerSize : ℚ
  gearTrains : List GearTrain
  desiredOutputMultiplier : ℚ
  addendum : ℚ
  module : ℚ
  minShaftDistance : ℚ
  maxShaftDistance : ℚ
  sharedInputGearSet : Bool
  inputGearSet : List ℚ
  inputAdjacentSize : ℚ
  foundSolutions : Int
  skippedSolutions : Int
  discardedSolutions : Int
  permutationStack : List PermutationStackFrame
  inputGearIndex : Nat
  permutationCount : Int
deriving Repr

/-- Constructor state of GearTrainPermutations (src/geartrain.js lines
191-205).  Fields the constructor leaves undefined get benign defaults here;
every run in this file assigns them before they are read. -/
def GearTrainPermutations.init : GearTrainPermutations :=
  { shaftCount := 0, shafts := [], changeGearSet := [], spacerSize := 0, gearTrains := [],
    desiredOutputMultiplier := 1, addendum := 6 / 5, module := 1, minShaftDistance := 0,
    maxShaftDistance := 0,
    sharedInputGearSet := false, inputGearSet := [], inputAdjacentSize := 0,
    foundSolutions := 0, skippedSolutions := 0, discardedSolutions := 0,
    permutationStack := [], inputGearIndex := 0, permutationCount := 0 }

/-- The constraintsViolated method (src/geartrain.js lines 227-245): whether
the distance constraints are violated by the partial train shafts[0..currentShaft].
The source returns true from two successive guarded ifs and false otherwise,
equivalent to this disjunction. -/
def constraintsViolated (g : GearTrainPermutations) (shafts : List Shaft)
    (currentShaft : Nat) : Prop :=
  if currentShaft = 0 then False
  else
    let train := GearTrain.make (shafts.take (currentShaft + 1))
    let distance := train.shaftDistance g.module
    (0 < g.minShaftDistance ∧ distance < g.minShaftDistance) ∨
      (0 < g.maxShaftDistance ∧ g.maxShaftDistance < distance)

instance (g : GearTrainPermutations) (shafts : List Shaft) (currentShaft : Nat) :
    Decidable (constraintsViolated g shafts currentShaft) := by
  unfold constraintsViolated
  exact inferInstance

/-- The registerGearTrain method (src/geartrain.js lines 345-348): store the
current gear train. -/
def registerGearTrain (g : GearTrainPermutations) : GearTrainPermutations :=
  { g with gearTrains := g.gearTrains ++ [GearTrain.make g.shafts] }

/-- Final-shaft loop of iterateShafts (src/geartrain.js lines 269-293): walk
the available gears from position lastIndex, skipping a candidate equal to its
predecessor, otherwise placing the single-gear output shaft, then rejecting on
violated constraints (skipped), interference (discarded), or accepting
(found). -/
def finalShaftLoop (g : GearTrainPermutations) (availableGears : List ℚ)
    (currentShaft : Nat) (lastIndex : Nat) : GearTrainPermutations :=
  if h : lastIndex < availableGears.length then
    let g2 :=
      if 0 < lastIndex ∧ availableGears.getD (lastIndex - 1) 0 = availableGears.getD lastIndex 0 then
        { g with skippedSolutions := g.skippedSolutions + 1 }
      else
        let newShafts :=
          g.shafts.set currentShaft (Shaft.make (availableGears.getD lastIndex 0) 0 g.spacerSize)
        let g1 := { g with shafts := newShafts }
        if constraintsViolated g1 g1.shafts currentShaft then
          { g1 with skippedSolutions := g1.skippedSolutions + 1 }
        else if ¬ shaftsInterfere (g1.shafts.getD (currentShaft - 1) default)
            (g1.shafts.getD currentShaft default) g1.addendum then
          let g3 := registerGearTrain g1
          { g3 with foundSolutions := g3.foundSolutions + 1 }
        else
          { g1 with discardedSolutions := g1.discardedSolutions + 1 }
    finalShaftLoop g2 availableGears currentShaft (lastIndex + 1)
  else g
termination_by availableGears.length - lastIndex
decreasing_by omega

/-- The iterateShafts method (src/geartrain.js lines 251-342).  The stack is a
list whose head is the top (JavaScript push and pop act on the array end).
The final-shaft comparison currentShaft == this.shafts.length - 1 is taken
over ℤ, matching JavaScript number arithmetic.  The permutation-count
argument this.shafts.length - currentShaft - 1 uses truncated ℕ subtraction;
along reachable states currentShaft is at most length - 2 so it agrees with
the source. -/
def iterateShafts (g : GearTrainPermutations) : Bool × GearTrainPermutations :=
  match g.permutationStack with
  | [] => (true, g)
  | frame :: rest =>
    let g0 := { g with permutationStack := rest }
    let availableGears := frame.availableGears
    let currentShaft := frame.currentShaft
    if (currentShaft : Int) = (g0.shafts.length : Int) - 1 then
      (false, finalShaftLoop g0 availableGears currentShaft 0)
    else
      let inputIndex :=
        if availableGears.length ≤ frame.outputIndex then frame.inputIndex + 1
        else frame.inputIndex
      let outputIndex :=
        if availableGears.length ≤ frame.outputIndex then 0 else frame.outputIndex
      if availableGears.length ≤ inputIndex then (false, g0)
      else
        let inputGear := availableGears.getD inputIndex 0
        let outputGear := if inputIndex = outputIndex then 0 else availableGears.getD outputIndex 0
        let remainingGears0 := availableGears.eraseIdx inputIndex
        let remainingGears :=
          if inputIndex = outputIndex then remainingGears0
          else if outputIndex < inputIndex then remainingGears0.eraseIdx outputIndex
          else remainingGears0.eraseIdx (outputIndex - 1)
        let newShafts := g0.shafts.set currentShaft (Shaft.make inputGear outputGear g0.spacerSize)
        let g1 := { g0 with shafts := newShafts }
        let frame2 : PermutationStackFrame :=
          { availableGears := availableGears, currentShaft := currentShaft,
            inputIndex := inputIndex, outputIndex := outputIndex + 1 }
        let g2 := { g1 with permutationStack := frame2 :: g1.permutationStack }
        if 0 < outputIndex ∧ 0 < outputGear ∧
            availableGears.getD (outputIndex - 1) 0 = availableGears.getD outputIndex 0 then
          let skipped := g2.skippedSolutions +
            calculatePermutationCount (g2.shafts.length - currentShaft - 1)
              (remainingGears.length : Int)
          (false, { g2 with skippedSolutions := skipped })
        else
          let childFrame : PermutationStackFrame :=
            { availableGears := remainingGears, currentShaft := currentShaft + 1,
              inputIndex := 0, outputIndex := 0 }
          (false, { g2 with permutationStack := childFrame :: g2.permutationStack })

/-- The setupCalculation method (src/geartrain.js lines 351-370).  The source
allocates this.shafts as new Array(shaftCount) whose slots are all written
before they are read along reachable paths; the allocation is modelled with
default shafts. -/
def setupCalculation (g : GearTrainPermutations) : GearTrainPermutations :=
  let shafts := List.replicate g.shaftCount (default : Shaft)
  { g with
    shafts := shafts,
    foundSolutions := 0, skippedSolutions := 0, discardedSolutions := 0,
    permutationStack := [],
    inputGearIndex := 0,
    permutationCount :=
      if g.sharedInputGearSet then
        (g.changeGearSet.length : Int) *
          calculatePermutationCount (shafts.length - 1) ((g.changeGearSet.length : Int) - 1)
      else
        (g.inputGearSet.length : Int) *
          calculatePermutationCount (shafts.length - 1) (g.changeGearSet.length : Int) }

/-- Removal of the first occurrence of a value from a list.  The source does
indexOf followed by splice(inputIndex, 1) guarded by inputIndex != -1
(src/geartrain.js lines 415-418), which removes the first occurrence when the
value is present and leaves the array unchanged otherwise. -/
def spliceFirst (l : List ℚ) (x : ℚ) : List ℚ :=
  match l with
  | [] => []
  | a :: t => if a = x then t else a :: spliceFirst t x

/-- Pool the first input gear is selected from (src/geartrain.js lines
389-394). -/
def firstGearSet (g : GearTrainPermutations) : List ℚ :=
  if g.sharedInputGearSet then g.changeGearSet else g.inputGearSet

/-- The iterate method (src/geartrain.js lines 387-432): one step of the
calculation.  Returns true when the calculation is completed.  The source
falls off the end of the function (returning undefined) when the stack is
empty, the input gears are exhausted, yet the completion test failed; that
combination is contradictory, so the final branch is unreachable and returns
false here. -/
def iterate (g : GearTrainPermutations) : Bool × GearTrainPermutations :=
  if (firstGearSet g).length ≤ g.inputGearIndex ∧ g.permutationStack.length ≤ 0 then
    (true, g)
  else if 0 < g.permutationStack.length then
    iterateShafts g
  else if g.inputGearIndex < (firstGearSet g).length then
    let gear := (firstGearSet g).getD g.inputGearIndex 0
    let g1 := { g with shafts := g.shafts.set 0 (Shaft.make gear 0 g.inputAdjacentSize) }
    let availableGearSet :=
      if g1.sharedInputGearSet then spliceFirst g1.changeGearSet gear else g1.changeGearSet
    let g2 := { g1 with
      permutationStack :=
        [{ availableGears := availableGearSet, currentShaft := 1, inputIndex := 0, outputIndex := 0 }],
      inputGearIndex := g1.inputGearIndex + 1 }
    iterateShafts g2
  else
    (false, g)

/-- Repeatedly calling iterate, threading the engine state.  stepN n g is the
state after n calls. -/
def stepN : Nat → GearTrainPermutations → GearTrainPermutations
  | 0, g => g
  | n + 1, g => stepN n (iterate g).2

/-!
Spec-side reference definitions.  These follow the wording of the
specification (closed-form indexed products and maxima) and are compared
against the source-derived definitions above.
-/

/-- Spec-side ratio product: the product over i from 1 of
shafts[i-1].outputGear / shafts[i].inputGear, written with explicit indices. -/
def ratioProductSpec (shafts : List Shaft) : ℚ :=
  ((List.range (shafts.length - 1)).map (fun i =>
    (shafts.getD i default).outputGear / (shafts.getD (i + 1) default).inputGear)).prod

/-- Spec-side numerator: the product over i from 1 of shafts[i-1].outputGear. -/
def numeratorSpec (shafts : List Shaft) : ℚ :=
  ((List.range (shafts.length - 1)).map (fun i => (shafts.getD i default).outputGear)).prod

/-- Spec-side denominator: the product over i from 1 of shafts[i].inputGear. -/
def denominatorSpec (shafts : List Shaft) : ℚ :=
  ((List.range (shafts.length - 1)).map (fun i => (shafts.getD (i + 1) default).inputGear)).prod

/-- Spec-side accumulated torque on shaft i: the product over boundaries j from
1 to i of shafts[j].inputGear / shafts[j-1].outputGear (torque is 1 on the
first shaft). -/
def torqueAtSpec (shafts : List Shaft) (i : Nat) : ℚ :=
  ((List.range i).map (fun j =>
    (shafts.getD (j + 1) default).inputGear / (shafts.getD j default).outputGear)).prod

/-- Spec-side maximum force: the maximum over all shafts of the accumulated
torque divided by that shaft's gear tooth counts; the first shaft contributes
torque / inputGear, every later shaft i contributes both
torque(i) / inputGear(i) and torque(i) / outputGear(i). -/
def maxForceSpec (shafts : List Shaft) : ℚ :=
  ((List.range (shafts.length - 1)).map (fun k =>
    (torqueAtSpec shafts (k + 1) / (shafts.getD (k + 1) default).inputGear,
     torqueAtSpec shafts (k + 1) / (shafts.getD (k + 1) default).outputGear))).foldl
    (fun m p => max (max m p.1) p.2) (1 / (shafts.getD 0 default).inputGear)

/-!
Accounting definitions used to state and prove the counter invariant of the
search engine.
-/

/-- Outcome count still ahead of a non-final frame whose cursors stand at
inputIndex i and outputIndex o with o not yet wrapped, where gc is the pool
size, W1 the outcome count of the subtree below a single-gear choice and W2
below a two-gear choice: the remainder of the current row plus the full rows
below it. -/
def remWeightCore (gc : Nat) (W1 W2 : Int) (i o : Nat) : Int :=
  if gc ≤ i then 0
  else
    (if o ≤ i then W1 - W2 else 0) + ((gc : Int) - o) * W2
      + ((gc : Int) - 1 - i) * (W1 + ((gc : Int) - 1) * W2)

/-- Outcome count still ahead of a non-final frame, normalising a wrapped
outputIndex exactly as iterateShafts does. -/
def remWeight (gc : Nat) (W1 W2 : Int) (i o : Nat) : Int :=
  if gc ≤ o then remWeightCore gc W1 W2 (i + 1) 0 else remWeightCore gc W1 W2 i o

/-- Outcome count a stack frame still accounts for: its pool size when it is a
final-shaft frame, otherwise the remaining weight of its pair enumeration. -/
def frameWeight (len : Nat) (f : PermutationStackFrame) : Int :=
  if (f.currentShaft : Int) = (len : Int) - 1 then (f.availableGears.length : Int)
  else
    remWeight f.availableGears.length
      (calculatePermutationCount (len - f.currentShaft - 1) ((f.availableGears.length : Int) - 1))
      (calculatePermutationCount (len - f.currentShaft - 1) ((f.availableGears.length : Int) - 2))
      f.inputIndex f.outputIndex

/-- Total outcome count the stack still accounts for. -/
def stackWeight (len : Nat) (stack : List PermutationStackFrame) : Int :=
  (stack.map (frameWeight len)).sum

/-- Outcome count below one seed of the first shaft, given the shaft count,
the shared-pool flag and the change-gear pool size. -/
def seedWeight (len : Nat) (shared : Bool) (changeCount : Nat) : Int :=
  calculatePermutationCount (len - 1)
    (if shared then (changeCount : Int) - 1 else (changeCount : Int))

/-- Every stored train is a snapshot of the given length whose last two shafts
pass the interference check with the given addendum. -/
def TrainsOk (len : Nat) (addendum : ℚ) (trains : List GearTrain) : Prop :=
  ∀ t ∈ trains, t.shafts.length = len ∧
    ¬ shaftsInterfere (t.shafts.getD (t.shafts.length - 2) default)
      (t.shafts.getD (t.shafts.length - 1) default) addendum

/-- Relation between the engine state before and after one outcome of the
final-shaft loop: exactly one counter is incremented, a train is appended
exactly when found is incremented, the stack, cursor, totals and
configuration are untouched, and stored trains stay acceptable. -/
def OutcomeStep (g g2 : GearTrainPermutations) : Prop :=
  g2.foundSolutions + g2.skippedSolutions + g2.discardedSolutions
      = g.foundSolutions + g.skippedSolutions + g.discardedSolutions + 1 ∧
  (g2.gearTrains.length : Int) - g2.foundSolutions
      = (g.gearTrains.length : Int) - g.foundSolutions ∧
  g2.permutationStack = g.permutationStack ∧
  g2.inputGearIndex = g.inputGearIndex ∧
  g2.permutationCount = g.permutationCount ∧
  g2.shafts.length = g.shafts.length ∧
  g2.changeGearSet = g.changeGearSet ∧
  g2.inputGearSet = g.inputGearSet ∧
  g2.sharedInputGearSet = g.sharedInputGearSet ∧
  g2.addendum = g.addendum ∧
  (TrainsOk g.shafts.length g.addendum g.gearTrains →
    TrainsOk g.shafts.length g.addendum g2.gearTrains)

/-- Specification of the whole final-shaft loop from position j: the counters
absorb one outcome per remaining pool position, trains track the found
counter, everything else is preserved. -/
def FinalLoopSpec (avail : List ℚ) (c j : Nat) (g : GearTrainPermutations) : Prop :=
  (finalShaftLoop g avail c j).foundSolutions + (finalShaftLoop g avail c j).skippedSolutions
      + (finalShaftLoop g avail c j).discardedSolutions
      = g.foundSolutions + g.skippedSolutions + g.discardedSolutions
        + ((avail.length - j : Nat) : Int) ∧
  ((finalShaftLoop g avail c j).gearTrains.length : Int)
      - (finalShaftLoop g avail c j).foundSolutions
      = (g.gearTrains.length : Int) - g.foundSolutions ∧
  (finalShaftLoop g avail c j).permutationStack = g.permutationStack ∧
  (finalShaftLoop g avail c j).inputGearIndex = g.inputGearIndex ∧
  (finalShaftLoop g avail c j).permutationCount = g.permutationCount ∧
  (finalShaftLoop g avail c j).shafts.length = g.shafts.length ∧
  (finalShaftLoop g avail c j).changeGearSet = g.changeGearSet ∧
  (finalShaftLoop g avail c j).inputGearSet = g.inputGearSet ∧
  (finalShaftLoop g avail c j).sharedInputGearSet = g.sharedInputGearSet ∧
  (finalShaftLoop g avail c j).addendum = g.addendum ∧
  (TrainsOk g.shafts.length g.addendum g.gearTrains →
    TrainsOk g.shafts.length g.addendum (finalShaftLoop g avail c j).gearTrains)

/-- Invariant of a running engine: at least two shafts, the first-shaft cursor
within bounds, well-formed frame depths, exact accounting of the
found/skipped/discarded counters against the frames and seeds not yet
processed, the result list in bijection with the found counter, and every
stored train a full-length snapshot whose last two shafts were accepted by the
interference check. -/
def EngineInv (g : GearTrainPermutations) : Prop :=
  2 ≤ g.shafts.length ∧
  g.inputGearIndex ≤ (if g.sharedInputGearSet then g.changeGearSet else g.inputGearSet).length ∧
  (∀ f ∈ g.permutationStack, 1 ≤ f.currentShaft ∧ f.currentShaft ≤ g.shafts.length - 1) ∧
  g.foundSolutions + g.skippedSolutions + g.discardedSolutions
      + stackWeight g.shafts.length g.permutationStack
      + (((if g.sharedInputGearSet then g.changeGearSet else g.inputGearSet).length
            - g.inputGearIndex : Nat) : Int)
        * seedWeight g.shafts.length g.sharedInputGearSet g.changeGearSet.length
    = g.permutationCount ∧
  (g.gearTrains.length : Int) = g.foundSolutions ∧
  TrainsOk g.shafts.length g.addendum g.gearTrains

/-!
Concrete run used to evaluate the engine on a duplicate gear pool: two
shafts, shared input pool, change gears 20 and 20.
-/

/-- Configuration with a duplicate tooth count in the (shared) gear pool. -/
def dupConfig : GearTrainPermutations :=
  { GearTrainPermutations.init with
    shaftCount := 2, sharedInputGearSet := true, changeGearSet := [20, 20] }

/-- The single-gear 20-tooth shaft the run builds. -/
def dupShaft : Shaft := ⟨1, 20, 20, 0⟩

/-- The gear train the run registers (twice). -/
def dupTrain : GearTrain := GearTrain.make [dupShaft, dupShaft]

/-- Engine state after setupCalculation. -/
def dupState0 : GearTrainPermutations :=
  { dupConfig with shafts := List.replicate 2 default, permutationCount := 2 }

/-- Engine state after seeding the first input gear, before the final-shaft
loop runs. -/
def dupSeed1 : GearTrainPermutations :=
  { dupConfig with
    shafts := [dupShaft, default],
    permutationStack :=
      [{ availableGears := [20], currentShaft := 1, inputIndex := 0, outputIndex := 0 }],
    inputGearIndex := 1, permutationCount := 2 }

/-- Engine state after the first advance: one train found. -/
def dupState1 : GearTrainPermutations :=
  { dupConfig with
    shafts := [dupShaft, dupShaft], gearTrains := [dupTrain],
    inputGearIndex := 1, foundSolutions := 1, permutationCount := 2 }

/-- Engine state after seeding the second (duplicate) input gear. -/
def dupSeed2 : GearTrainPermutations :=
  { dupState1 with
    permutationStack :=
      [{ availableGears := [20], currentShaft := 1, inputIndex := 0, outputIndex := 0 }],
    inputGearIndex := 2 }

/-- Engine state after the second advance: the identical train found again. -/
def dupState2 : GearTrainPermutations :=
  { dupConfig with
    shafts := [dupShaft, dupShaft], gearTrains := [dupTrain, dupTrain],
    inputGearIndex := 2, foundSolutions := 2, permutationCount := 2 }

/-!
Theorems for the claims.
-/

/-- Claim C2: for every pair of adjacent shafts and every addendum, the
interference predicate holds iff (input's spacerSize if it has one gear, else
its inputGear) + (output's spacerSize if it has one gear, else its outputGear)
+ 2 * addendum strictly exceeds input.outputGear + output.inputGear; and in
the 20/20 single-gear scenario with spacer 0 and addendum 1.25 the meshing
distance is 40, the non-meshing distance is 2.5, and there is no
interference. -/
theorem claim_C2_interference :
    (∀ (input output : Shaft) (addendum : ℚ),
      shaftsInterfere input output addendum ↔
        (if input.gearCount = 1 then input.spacerSize else input.inputGear)
          + (if output.gearCount = 1 then output.spacerSize else output.outputGear)
          + 2 * addendum > input.outputGear + output.inputGear) ∧
    meshingDistance (Shaft.make 20 0 0) (Shaft.make 20 0 0) = 40 ∧
    nonMeshingDistance (Shaft.make 20 0 0) (Shaft.make 20 0 0) (5 / 4) = 5 / 2 ∧
    ¬ shaftsInterfere (Shaft.make 20 0 0) (Shaft.make 20 0 0) (5 / 4) := by
  refine ⟨fun i o a => Iff.rfl, ?_, ?_, ?_⟩ <;>
    norm_num [shaftsInterfere, meshingDistance, nonMeshingDistance, Shaft.make]

/-- Claim C3 counterexample: the permutation-count function does not return 1
for shaftCount 1; at gearCount 3 it returns 3. -/
theorem claim_C3_counterexample : ¬ (calculatePermutationCount 1 3 = 1) := by decide

/-- Claim C3 as amended: for shaftCount 1 the permutation count is gearCount
(not 1), and for shaftCount at least 2 it is
gearCount * count(shaftCount-1, gearCount-1)
+ gearCount * (gearCount-1) * count(shaftCount-1, gearCount-2). -/
theorem claim_C3_amended :
    (∀ gearCount : Int, calculatePermutationCount 1 gearCount = gearCount) ∧
    (∀ (shaftCount : Nat) (gearCount : Int), 2 ≤ shaftCount →
      calculatePermutationCount shaftCount gearCount =
        gearCount * calculatePermutationCount (shaftCount - 1) (gearCount - 1)
          + gearCount * (gearCount - 1) * calculatePermutationCount (shaftCount - 1) (gearCount - 2)) := by
  refine ⟨fun _ => rfl, fun sc gc h => ?_⟩
  match sc, h with
  | n + 2, _ => simp [calculatePermutationCount]

/-- Witness for the amended claim C3 at concrete inputs. -/
theorem claim_C3_amended_witness :
    calculatePermutationCount 1 5 = 5 ∧
    calculatePermutationCount 2 3 =
      3 * calculatePermutationCount 1 2 + 3 * (3 - 1) * calculatePermutationCount 1 1 :=
  ⟨claim_C3_amended.1 5, claim_C3_amended.2 2 3 (by norm_num)⟩

/-- Claim C5: the comparator orders a before b exactly when a's deviation from
the target is smaller, with ties broken by ascending maxForce; and its value
depends only on the two trains' outputMultiplier and maxForce fields (the
shafts and the numerator and denominator fields never influence it). -/
theorem claim_C5_comparator :
    (∀ (a b : GearTrain) (t : ℚ),
      compareGearTrains a b t < 0 ↔
        (|a.outputMultiplier - t| < |b.outputMultiplier - t| ∨
          (|a.outputMultiplier - t| = |b.outputMultiplier - t| ∧ a.maxForce < b.maxForce))) ∧
    (∀ (a b a2 b2 : GearTrain) (t : ℚ),
      a2.outputMultiplier = a.outputMultiplier → a2.maxForce = a.maxForce →
      b2.outputMultiplier = b.outputMultiplier → b2.maxForce = b.maxForce →
      compareGearTrains a2 b2 t = compareGearTrains a b t) := by
  constructor
  · intro a b t
    unfold compareGearTrains
    by_cases h : |a.outputMultiplier - t| - |b.outputMultiplier - t| = 0
    · rw [if_pos h]
      have hd := sub_eq_zero.mp h
      constructor
      · intro hf
        exact Or.inr ⟨hd, sub_neg.mp hf⟩
      · rintro (hlt | ⟨-, hf⟩)
        · rw [hd] at hlt
          exact absurd hlt (lt_irrefl _)
        · exact sub_neg.mpr hf
    · rw [if_neg h]
      rw [sub_neg]
      constructor
      · exact Or.inl
      · rintro (hlt | ⟨heq, -⟩)
        · exact hlt
        · exact absurd (sub_eq_zero.mpr heq) h
  · intro a b a2 b2 t h1 h2 h3 h4
    unfold compareGearTrains
    rw [h1, h2, h3, h4]

/-- Witness for claim C5: the comparator ignores the shafts, numerator and
denominator fields at a concrete pair of trains. -/
theorem claim_C5_comparator_witness :
    compareGearTrains ⟨[], 1, 7, 9, 2⟩ ⟨[], 3, 1, 1, 5⟩ 0 =
      compareGearTrains ⟨[], 1, 1, 1, 2⟩ ⟨[], 3, 4, 4, 5⟩ 0 :=
  claim_C5_comparator.2 ⟨[], 1, 1, 1, 2⟩ ⟨[], 3, 4, 4, 5⟩ ⟨[], 1, 7, 9, 2⟩ ⟨[], 3, 1, 1, 5⟩ 0
    rfl rfl rfl rfl

/-- Claim C10: shaftDistance returns 0 whenever the window's first shaft index
exceeds the shaft count minus 2 (in particular on trains of zero or one
shafts), and a lastShaft argument of -1 gives the same result as passing the
train's length. -/
theorem claim_C10_shaftDistance :
    ∀ (t : GearTrain) (module : ℚ) (firstShaft : Nat) (lastShaft : Int),
      ((t.shafts.length : Int) - 2 < (firstShaft : Int) →
        t.shaftDistance module firstShaft lastShaft = 0) ∧
      t.shaftDistance module firstShaft (-1) =
        t.shaftDistance module firstShaft (t.shafts.length : Int) := by
  intro t m f l
  constructor
  · intro h
    unfold GearTrain.shaftDistance
    rw [if_pos h]
  · unfold GearTrain.shaftDistance
    by_cases h : (t.shafts.length : Int) - 2 < (f : Int)
    · rw [if_pos h, if_pos h]
    · rw [if_neg h, if_neg h]
      norm_num

/-- Witness for claim C10 on a concrete empty train. -/
theorem claim_C10_shaftDistance_witness :
    ((GearTrain.make []).shafts.length : Int) - 2 < ((0 : Nat) : Int) ∧
    (GearTrain.make []).shaftDistance 1 0 7 = 0 ∧
    (GearTrain.make []).shaftDistance 1 0 (-1) =
      (GearTrain.make []).shaftDistance 1 0 (((GearTrain.make []).shafts.length : Int)) :=
  ⟨by simp [GearTrain.make], (claim_C10_shaftDistance _ 1 0 7).1 (by simp [GearTrain.make]),
    (claim_C10_shaftDistance _ 1 0 7).2⟩

/-- Claim C7: once the first-shaft cursor is past the end of its pool and the
frame stack is empty, iterate reports completion and leaves the whole engine
state unchanged, and every number of further calls leaves it unchanged. -/
theorem claim_C7_idempotent (g : GearTrainPermutations)
    (hidx : (firstGearSet g).length ≤ g.inputGearIndex)
    (hstack : g.permutationStack = []) :
    iterate g = (true, g) ∧ ∀ n, stepN n g = g := by
  have hit : iterate g = (true, g) := by
    unfold iterate
    rw [if_pos ⟨hidx, by rw [hstack]; exact Nat.le_refl 0⟩]
  refine ⟨hit, fun n => ?_⟩
  induction n with
  | zero => rfl
  | succ k ih =>
    show stepN k (iterate g).2 = g
    rw [hit]
    exact ih

/-- Witness for claim C7 at the freshly constructed engine. -/
theorem claim_C7_idempotent_witness :
    iterate GearTrainPermutations.init = (true, GearTrainPermutations.init) ∧
    ∀ n, stepN n GearTrainPermutations.init = GearTrainPermutations.init :=
  claim_C7_idempotent GearTrainPermutations.init
    (by simp [firstGearSet, GearTrainPermutations.init]) rfl

/-- Bridge lemma: the consecutive-pair list equals the indexed formulation
over List.range. -/
theorem shaftPairs_eq_range :
    ∀ s : List Shaft, shaftPairs s =
      (List.range (s.length - 1)).map (fun i => (s.getD i default, s.getD (i + 1) default))
  | [] => by simp [shaftPairs]
  | [a] => by simp [shaftPairs]
  | a :: b :: u => by
    have ih := shaftPairs_eq_range (b :: u)
    show (a, b) :: shaftPairs (b :: u) = _
    rw [ih]
    simp only [List.length_cons, Nat.add_sub_cancel] at ih ⊢
    rw [List.range_succ_eq_map, List.map_cons, List.map_map]
    simp [Function.comp_def]

/-- Products of pointwise quotients split into a quotient of products. -/
theorem prod_map_div_of_list (l : List Nat) (A B : Nat → ℚ) :
    (l.map (fun i => A i / B i)).prod = (l.map A).prod / (l.map B).prod := by
  induction l with
  | nil => simp
  | cons a t ih =>
    simp only [List.map_cons, List.prod_cons, ih]
    rw [div_mul_div_comm]

/-- The numerator fold of updateOutputFraction equals the indexed product. -/
theorem fractionNumerator_eq_spec (s : List Shaft) :
    fractionNumerator s = numeratorSpec s := by
  rw [fractionNumerator, ← List.prod_eq_foldl, shaftPairs_eq_range, List.map_map,
    numeratorSpec]
  rfl

/-- The denominator fold of updateOutputFraction equals the indexed product. -/
theorem fractionDenominator_eq_spec (s : List Shaft) :
    fractionDenominator s = denominatorSpec s := by
  rw [fractionDenominator, ← List.prod_eq_foldl, shaftPairs_eq_range, List.map_map,
    denominatorSpec]
  rfl

/-- Claim C6: for every GearTrain built from a non-empty shaft list, the
stored outputMultiplier equals the indexed product of consecutive
outputGear / inputGear ratios, the stored numerator and denominator are the
corresponding integer-product folds, and the stored multiplier is their
quotient. -/
theorem claim_C6_outputMultiplier (shafts : List Shaft) (h : shafts ≠ []) :
    (GearTrain.make shafts).outputMultiplier = ratioProductSpec shafts ∧
    (GearTrain.make shafts).numerator = numeratorSpec shafts ∧
    (GearTrain.make shafts).denominator = denominatorSpec shafts ∧
    (GearTrain.make shafts).outputMultiplier =
      (GearTrain.make shafts).numerator / (GearTrain.make shafts).denominator := by
  match shafts, h with
  | s0 :: rest, _ =>
    have hm : (GearTrain.make (s0 :: rest)).outputMultiplier =
        fractionNumerator (s0 :: rest) / fractionDenominator (s0 :: rest) := rfl
    have hn : (GearTrain.make (s0 :: rest)).numerator = fractionNumerator (s0 :: rest) := rfl
    have hd : (GearTrain.make (s0 :: rest)).denominator = fractionDenominator (s0 :: rest) := rfl
    refine ⟨?_, ?_, ?_, ?_⟩
    · rw [hm, fractionNumerator_eq_spec, fractionDenominator_eq_spec, ratioProductSpec,
        numeratorSpec, denominatorSpec, prod_map_div_of_list]
    · rw [hn, fractionNumerator_eq_spec]
    · rw [hd, fractionDenominator_eq_spec]
    · rw [hm, hn, hd]

/-- Witness for claim C6 on a concrete two-shaft train. -/
theorem claim_C6_outputMultiplier_witness :
    (GearTrain.make [Shaft.make 20 0 0, Shaft.make 40 0 0]).outputMultiplier =
      ratioProductSpec [Shaft.make 20 0 0, Shaft.make 40 0 0] ∧
    (GearTrain.make [Shaft.make 20 0 0, Shaft.make 40 0 0]).numerator =
      numeratorSpec [Shaft.make 20 0 0, Shaft.make 40 0 0] ∧
    (GearTrain.make [Shaft.make 20 0 0, Shaft.make 40 0 0]).denominator =
      denominatorSpec [Shaft.make 20 0 0, Shaft.make 40 0 0] ∧
    (GearTrain.make [Shaft.make 20 0 0, Shaft.make 40 0 0]).outputMultiplier =
      (GearTrain.make [Shaft.make 20 0 0, Shaft.make 40 0 0]).numerator /
        (GearTrain.make [Shaft.make 20 0 0, Shaft.make 40 0 0]).denominator :=
  claim_C6_outputMultiplier [Shaft.make 20 0 0, Shaft.make 40 0 0] (by simp)

/-- Element at the split point of a drop decomposition. -/
theorem getD_eq_of_drop (l : List Shaft) (c : Nat) (x : Shaft) (t : List Shaft)
    (h : l.drop c = x :: t) : l.getD c default = x := by
  rw [List.getD_eq_getElem?_getD]
  have h0 : l[c]? = some x := by
    have h1 := List.getElem?_drop l c 0
    rw [h] at h1
    simpa using h1.symm
  rw [h0]
  rfl

/-- Dropping one more element past a drop decomposition. -/
theorem drop_succ_of_drop (l : List Shaft) (c : Nat) (x : Shaft) (t : List Shaft)
    (h : l.drop c = x :: t) : l.drop (c + 1) = t := by
  have h1 := List.drop_drop 1 c l
  rw [h] at h1
  simpa using h1.symm

/-- One multiplicative step of the accumulated torque. -/
theorem torqueAtSpec_succ (full : List Shaft) (c : Nat) :
    torqueAtSpec full (c + 1) =
      torqueAtSpec full c *
        ((full.getD (c + 1) default).inputGear / (full.getD c default).outputGear) := by
  unfold torqueAtSpec
  rw [List.range_succ, List.map_append, List.prod_append]
  simp

/-- The updateMaxForce loop, started at position c of the full shaft list with
the accumulated torque for that position, computes the foldl of the indexed
spec candidates of the remaining positions. -/
theorem maxForceAux_eq_spec :
    ∀ (rest : List Shaft) (full : List Shaft) (c : Nat) (prev : Shaft) (m : ℚ),
      full.drop c = prev :: rest →
      maxForceAux rest prev (torqueAtSpec full c) m =
        ((List.range rest.length).map (fun k =>
          (torqueAtSpec full (c + 1 + k) / (full.getD (c + 1 + k) default).inputGear,
           torqueAtSpec full (c + 1 + k) / (full.getD (c + 1 + k) default).outputGear))).foldl
          (fun acc p => max (max acc p.1) p.2) m
  | [], full, c, prev, m, h => by simp [maxForceAux]
  | s :: r, full, c, prev, m, h => by
    have hc : full.getD c default = prev := getD_eq_of_drop full c prev (s :: r) h
    have hdrop1 : full.drop (c + 1) = s :: r := drop_succ_of_drop full c prev (s :: r) h
    have hc1 : full.getD (c + 1) default = s := getD_eq_of_drop full (c + 1) s r hdrop1
    have htorque : torqueAtSpec full (c + 1) =
        torqueAtSpec full c * (s.inputGear / prev.outputGear) := by
      rw [torqueAtSpec_succ, hc, hc1]
    have ih := maxForceAux_eq_spec r full (c + 1) s
      (max (max m (torqueAtSpec full (c + 1) / s.inputGear))
        (torqueAtSpec full (c + 1) / s.outputGear)) hdrop1
    show maxForceAux (s :: r) prev (torqueAtSpec full c) m = _
    rw [maxForceAux]
    rw [show torqueAtSpec full c * (s.inputGear / prev.outputGear) =
      torqueAtSpec full (c + 1) from htorque.symm]
    rw [ih]
    rw [List.length_cons, List.range_succ_eq_map, List.map_cons, List.map_map]
    rw [List.foldl_cons]
    have hmap : ∀ k : Nat,
        ((fun k => (torqueAtSpec full (c + 1 + k) / (full.getD (c + 1 + k) default).inputGear,
          torqueAtSpec full (c + 1 + k) / (full.getD (c + 1 + k) default).outputGear)) ∘
            Nat.succ) k =
          (fun k =>
            (torqueAtSpec full (c + 1 + 1 + k) / (full.getD (c + 1 + 1 + k) default).inputGear,
             torqueAtSpec full (c + 1 + 1 + k) /
               (full.getD (c + 1 + 1 + k) default).outputGear)) k := by
      intro k
      have hk : c + 1 + Nat.succ k = c + 1 + 1 + k := by omega
      simp only [Function.comp_apply, hk]
    rw [List.map_congr_left fun k _ => hmap k]
    have hzero : c + 1 + 0 = c + 1 := rfl
    simp only [hzero, hc1]

/-- Claim C9: for every GearTrain with at least one shaft, the stored maxForce
equals the maximum over all shafts of the accumulated torque divided by that
shaft's gear tooth counts, with torque given by the closed-form product of
inputGear[i] / outputGear[i-1] over the boundaries, the first shaft
contributing torque / inputGear and every later shaft contributing both
torque / inputGear and torque / outputGear. -/
theorem claim_C9_maxForce (shafts : List Shaft) (h : shafts ≠ []) :
    (GearTrain.make shafts).maxForce = maxForceSpec shafts := by
  match shafts, h with
  | s0 :: rest, _ =>
    show maxForceAux rest s0 1 (1 / s0.inputGear) = _
    have h0 : torqueAtSpec (s0 :: rest) 0 = 1 := by simp [torqueAtSpec]
    have happ := maxForceAux_eq_spec rest (s0 :: rest) 0 s0 (1 / s0.inputGear) (by simp)
    rw [h0] at happ
    rw [happ]
    unfold maxForceSpec
    simp only [List.length_cons, Nat.add_sub_cancel, List.getD_cons_zero]
    have hidx : ∀ k : Nat, 0 + 1 + k = k + 1 := fun k => by omega
    simp only [hidx]

/-- Witness for claim C9 on a concrete two-shaft train. -/
theorem claim_C9_maxForce_witness :
    (GearTrain.make [Shaft.make 20 0 0, Shaft.make 30 40 0]).maxForce =
      maxForceSpec [Shaft.make 20 0 0, Shaft.make 30 40 0] :=
  claim_C9_maxForce [Shaft.make 20 0 0, Shaft.make 30 40 0] (by simp)

/-- Base case of the permutation count. -/
theorem calculatePermutationCount_one (gc : Int) : calculatePermutationCount 1 gc = gc := rfl

/-- Recursive case of the permutation count for at least two shafts. -/
theorem calculatePermutationCount_two_le (sc : Nat) (gc : Int) (h : 2 ≤ sc) :
    calculatePermutationCount sc gc =
      gc * calculatePermutationCount (sc - 1) (gc - 1)
        + gc * (gc - 1) * calculatePermutationCount (sc - 1) (gc - 2) := by
  match sc, h with
  | n + 2, _ => simp [calculatePermutationCount]

/-- Unfolding of remWeight into its normalised core. -/
theorem remWeight_eq_core (gc : Nat) (W1 W2 : Int) (i o : Nat) :
    remWeight gc W1 W2 i o =
      remWeightCore gc W1 W2 (if gc ≤ o then i + 1 else i) (if gc ≤ o then 0 else o) := by
  unfold remWeight
  split_ifs <;> rfl

/-- An exhausted core has weight zero. -/
theorem remWeightCore_zero (gc : Nat) (W1 W2 : Int) (i o : Nat) (h : gc ≤ i) :
    remWeightCore gc W1 W2 i o = 0 := by
  unfold remWeightCore
  rw [if_pos h]

/-- A fresh frame carries the full count of its pair enumeration. -/
theorem remWeight_fresh (gc : Nat) (W1 W2 : Int) :
    remWeight gc W1 W2 0 0 = (gc : Int) * W1 + (gc : Int) * ((gc : Int) - 1) * W2 := by
  by_cases h0 : gc = 0
  · subst h0
    simp [remWeight, remWeightCore]
  · have h1 : ¬ (gc ≤ 0) := by omega
    unfold remWeight remWeightCore
    rw [if_neg h1, if_neg h1, if_pos (Nat.le_refl 0)]
    push_cast
    ring

/-- Processing one cursor position splits a core weight into the weight of the
pair at the cursor plus the weight of the re-pushed frame. -/
theorem remWeightCore_step (gc : Nat) (W1 W2 : Int) (i o : Nat) (hi : i < gc) (ho : o < gc) :
    remWeightCore gc W1 W2 i o =
      (if i = o then W1 else W2) + remWeight gc W1 W2 i (o + 1) := by
  have hgi : ¬ (gc ≤ i) := by omega
  by_cases hwrap : gc ≤ o + 1
  · have hoeq : (o : Int) = (gc : Int) - 1 := by omega
    rw [remWeight_eq_core, if_pos hwrap, if_pos hwrap]
    by_cases hi1 : gc ≤ i + 1
    · have hio : i = o := by omega
      have hieq : (i : Int) = (gc : Int) - 1 := by omega
      rw [remWeightCore_zero gc W1 W2 (i + 1) 0 hi1]
      unfold remWeightCore
      rw [if_neg hgi, if_pos (by omega : o ≤ i), if_pos hio, hoeq, hieq]
      ring
    · have hio : ¬ (i = o) := by omega
      unfold remWeightCore
      rw [if_neg hgi, if_neg hi1, if_neg (by omega : ¬ (o ≤ i)),
        if_pos (by omega : 0 ≤ i + 1), if_neg hio, hoeq]
      push_cast
      ring
  · rw [remWeight_eq_core, if_neg hwrap, if_neg hwrap]
    unfold remWeightCore
    rw [if_neg hgi, if_neg hgi]
    rcases Nat.lt_trichotomy i o with hlt | heq | hgt
    · rw [if_neg (by omega : ¬ (o ≤ i)), if_neg (by omega : ¬ (o + 1 ≤ i)),
        if_neg (by omega : ¬ (i = o))]
      push_cast
      ring
    · rw [if_pos (by omega : o ≤ i), if_neg (by omega : ¬ (o + 1 ≤ i)),
        if_pos heq]
      push_cast
      ring
    · rw [if_pos (by omega : o ≤ i), if_pos (by omega : o + 1 ≤ i),
        if_neg (by omega : ¬ (i = o))]
      push_cast
      ring

/-- A fresh frame at a well-formed depth carries the permutation count of its
subtree. -/
theorem frameWeight_fresh (len : Nat) (c : Nat) (pool : List ℚ) (h1 : 1 ≤ c)
    (h2 : c ≤ len - 1) (hlen : 2 ≤ len) :
    frameWeight len ⟨pool, c, 0, 0⟩ = calculatePermutationCount (len - c) (pool.length : Int) := by
  unfold frameWeight
  by_cases hfin : (c : Int) = (len : Int) - 1
  · rw [if_pos hfin]
    have hsub : len - c = 1 := by omega
    rw [hsub, calculatePermutationCount_one]
  · rw [if_neg hfin]
    have hsub : 2 ≤ len - c := by omega
    rw [remWeight_fresh, calculatePermutationCount_two_le (len - c) (pool.length : Int) hsub]

/-- Splitting the stack weight at the top frame. -/
theorem stackWeight_cons (len : Nat) (f : PermutationStackFrame)
    (rest : List PermutationStackFrame) :
    stackWeight len (f :: rest) = frameWeight len f + stackWeight len rest := by
  simp [stackWeight]

/-- The GearTrain constructor keeps the shaft list it is given. -/
theorem GearTrain.make_shafts (s : List Shaft) : (GearTrain.make s).shafts = s := by
  cases s <;> rfl

/-- Gluing one outcome step onto the rest of the final-shaft loop. -/
theorem FinalLoopSpec_step (avail : List ℚ) (c j : Nat) (g g2 : GearTrainPermutations)
    (hj : j < avail.length)
    (hrec : finalShaftLoop g avail c j = finalShaftLoop g2 avail c (j + 1))
    (hstep : OutcomeStep g g2)
    (hspec2 : FinalLoopSpec avail c (j + 1) g2) : FinalLoopSpec avail c j g := by
  obtain ⟨hsum, hdiff, hstack, hidx, hcount, hlen, hchg, hinp, hshared, hadd, htrains⟩ := hstep
  unfold FinalLoopSpec at hspec2 ⊢
  rw [hrec]
  obtain ⟨s1, s2, s3, s4, s5, s6, s7, s8, s9, s10, s11⟩ := hspec2
  refine ⟨?_, ?_, ?_, ?_, ?_, ?_, ?_, ?_, ?_, ?_, ?_⟩
  · rw [s1, hsum]
    have hcast : ((avail.length - (j + 1) : Nat) : Int) + 1 = ((avail.length - j : Nat) : Int) := by
      omega
    omega
  · rw [s2, hdiff]
  · rw [s3, hstack]
  · rw [s4, hidx]
  · rw [s5, hcount]
  · rw [s6, hlen]
  · rw [s7, hchg]
  · rw [s8, hinp]
  · rw [s9, hshared]
  · rw [s10, hadd]
  · intro hok
    have hok2 := htrains hok
    rw [← hlen, ← hadd] at hok2
    have h3 := s11 hok2
    rw [← hlen, ← hadd]
    exact h3

/-- One iteration of the final-shaft loop performs exactly one outcome step. -/
theorem finalLoop_branch (avail : List ℚ) (c j : Nat) (g : GearTrainPermutations)
    (hj : j < avail.length) (hc : c = g.shafts.length - 1) (hc1 : 1 ≤ c)
    (hlen : 2 ≤ g.shafts.length) :
    ∃ g2, finalShaftLoop g avail c j = finalShaftLoop g2 avail c (j + 1) ∧ OutcomeStep g g2 := by
  by_cases hdup : 0 < j ∧ avail.getD (j - 1) 0 = avail.getD j 0
  · refine ⟨{ g with skippedSolutions := g.skippedSolutions + 1 }, ?_, ?_⟩
    · rw [finalShaftLoop, dif_pos hj, if_pos hdup]
    · unfold OutcomeStep TrainsOk
      refine ⟨by dsimp only; omega, rfl, rfl, rfl, rfl, rfl, rfl, rfl, rfl, rfl,
        fun h => h⟩
  · have hlen1 :
        (g.shafts.set c (Shaft.make (avail.getD j 0) 0 g.spacerSize)).length
          = g.shafts.length := List.length_set g.shafts c _
    by_cases hviol : constraintsViolated
        { g with shafts := g.shafts.set c (Shaft.make (avail.getD j 0) 0 g.spacerSize) }
        (g.shafts.set c (Shaft.make (avail.getD j 0) 0 g.spacerSize)) c
    · refine ⟨{ g with
        shafts := g.shafts.set c (Shaft.make (avail.getD j 0) 0 g.spacerSize),
        skippedSolutions := g.skippedSolutions + 1 }, ?_, ?_⟩
      · rw [finalShaftLoop, dif_pos hj, if_neg hdup]
        dsimp only
        rw [if_pos hviol]
      · unfold OutcomeStep TrainsOk
        refine ⟨by dsimp only; omega, rfl, rfl, rfl, rfl, hlen1, rfl, rfl, rfl,
          rfl, fun h => h⟩
    · by_cases hint : shaftsInterfere
          ((g.shafts.set c (Shaft.make (avail.getD j 0) 0 g.spacerSize)).getD (c - 1) default)
          ((g.shafts.set c (Shaft.make (avail.getD j 0) 0 g.spacerSize)).getD c default)
          g.addendum
      · refine ⟨{ g with
          shafts := g.shafts.set c (Shaft.make (avail.getD j 0) 0 g.spacerSize),
          discardedSolutions := g.discardedSolutions + 1 }, ?_, ?_⟩
        · rw [finalShaftLoop, dif_pos hj, if_neg hdup]
          dsimp only
          rw [if_neg hviol, if_neg (not_not_intro hint)]
        · unfold OutcomeStep TrainsOk
          refine ⟨by dsimp only; omega, rfl, rfl, rfl, rfl, hlen1, rfl, rfl, rfl,
            rfl, fun h => h⟩
      · refine ⟨{ g with
          shafts := g.shafts.set c (Shaft.make (avail.getD j 0) 0 g.spacerSize),
          gearTrains := g.gearTrains
            ++ [GearTrain.make (g.shafts.set c (Shaft.make (avail.getD j 0) 0 g.spacerSize))],
          foundSolutions := g.foundSolutions + 1 }, ?_, ?_⟩
        · rw [finalShaftLoop, dif_pos hj, if_neg hdup]
          dsimp only
          rw [if_neg hviol, if_pos hint]
          rfl
        · unfold OutcomeStep TrainsOk
          refine ⟨by dsimp only; omega, ?_, rfl, rfl, rfl, hlen1, rfl, rfl, rfl, rfl, ?_⟩
          · dsimp only
            rw [List.length_append, List.length_singleton]
            push_cast
            omega
          · intro h t ht
            rw [List.mem_append] at ht
            rcases ht with ht | ht
            · exact h t ht
            · rw [List.mem_singleton] at ht
              subst ht
              rw [GearTrain.make_shafts, hlen1]
              refine ⟨rfl, ?_⟩
              have h2 : g.shafts.length - 2 = c - 1 := by omega
              have h1 : g.shafts.length - 1 = c := by omega
              rw [h2, h1]
              exact hint

/-- Full specification of the final-shaft loop, by induction on the remaining
pool positions. -/
theorem finalShaftLoop_spec (avail : List ℚ) (c : Nat) :
    ∀ (n j : Nat) (g : GearTrainPermutations), avail.length - j ≤ n →
      c = g.shafts.length - 1 → 1 ≤ c → 2 ≤ g.shafts.length →
      FinalLoopSpec avail c j g := by
  intro n
  induction n with
  | zero =>
    intro j g hle hc hc1 hlen
    have hj : ¬ (j < avail.length) := by omega
    have h0 : avail.length - j = 0 := by omega
    unfold FinalLoopSpec
    rw [finalShaftLoop, dif_neg hj, h0]
    exact ⟨by simp, rfl, rfl, rfl, rfl, rfl, rfl, rfl, rfl, rfl, fun h => h⟩
  | succ n ih =>
    intro j g hle hc hc1 hlen
    by_cases hj : j < avail.length
    · obtain ⟨g2, heq, hstep⟩ := finalLoop_branch avail c j g hj hc hc1 hlen
      have hlen2 : g2.shafts.length = g.shafts.length := hstep.2.2.2.2.2.1
      exact FinalLoopSpec_step avail c j g g2 hj heq hstep
        (ih (j + 1) g2 (by omega) (by rw [hlen2]; exact hc) hc1 (by rw [hlen2]; exact hlen))
    · have hj2 : ¬ (j < avail.length) := hj
      have h0 : avail.length - j = 0 := by omega
      unfold FinalLoopSpec
      rw [finalShaftLoop, dif_neg hj2, h0]
      exact ⟨by simp, rfl, rfl, rfl, rfl, rfl, rfl, rfl, rfl, rfl, fun h => h⟩

/-- Shape of iterateShafts on an empty stack. -/
theorem iterateShafts_eq_nil (g : GearTrainPermutations) (h : g.permutationStack = []) :
    iterateShafts g = (true, g) := by
  rw [iterateShafts, h]

/-- Shape of iterateShafts on a final-shaft frame. -/
theorem iterateShafts_eq_final (g : GearTrainPermutations) (f : PermutationStackFrame)
    (rest : List PermutationStackFrame) (h : g.permutationStack = f :: rest)
    (hfin : (f.currentShaft : Int) = ((g.shafts.length : Int) - 1)) :
    iterateShafts g = (false,
      finalShaftLoop { g with permutationStack := rest } f.availableGears f.currentShaft 0) := by
  rw [iterateShafts, h]
  dsimp only
  rw [if_pos hfin]

/-- Shape of iterateShafts on a non-final frame whose cursor is exhausted. -/
theorem iterateShafts_eq_dead (g : GearTrainPermutations) (f : PermutationStackFrame)
    (rest : List PermutationStackFrame) (ni : Nat) (h : g.permutationStack = f :: rest)
    (hfin : ¬ ((f.currentShaft : Int) = ((g.shafts.length : Int) - 1)))
    (hni : ni = if f.availableGears.length ≤ f.outputIndex then f.inputIndex + 1
      else f.inputIndex)
    (hdead : f.availableGears.length ≤ ni) :
    iterateShafts g = (false, { g with permutationStack := rest }) := by
  rw [iterateShafts, h]
  dsimp only
  rw [if_neg hfin, ← hni, if_pos hdead]

/-- Shape of iterateShafts on a non-final frame whose pair choice is skipped
as a duplicate of the previous output gear. -/
theorem iterateShafts_eq_skip (g : GearTrainPermutations) (f : PermutationStackFrame)
    (rest : List PermutationStackFrame) (ni no : Nat) (og : ℚ) (rem : List ℚ)
    (sh : List Shaft) (h : g.permutationStack = f :: rest)
    (hfin : ¬ ((f.currentShaft : Int) = ((g.shafts.length : Int) - 1)))
    (hni : ni = if f.availableGears.length ≤ f.outputIndex then f.inputIndex + 1
      else f.inputIndex)
    (hno : no = if f.availableGears.length ≤ f.outputIndex then 0 else f.outputIndex)
    (hlive : ¬ f.availableGears.length ≤ ni)
    (hog : og = if ni = no then 0 else f.availableGears.getD no 0)
    (hrem : rem = if ni = no then f.availableGears.eraseIdx ni
      else if no < ni then (f.availableGears.eraseIdx ni).eraseIdx no
      else (f.availableGears.eraseIdx ni).eraseIdx (no - 1))
    (hsh : sh = g.shafts.set f.currentShaft
      (Shaft.make (f.availableGears.getD ni 0) og g.spacerSize))
    (hskip : 0 < no ∧ 0 < og ∧
      f.availableGears.getD (no - 1) 0 = f.availableGears.getD no 0) :
    iterateShafts g = (false, { g with
      shafts := sh,
      permutationStack :=
        { availableGears := f.availableGears, currentShaft := f.currentShaft,
          inputIndex := ni, outputIndex := no + 1 } :: rest,
      skippedSolutions := g.skippedSolutions +
        calculatePermutationCount (sh.length - f.currentShaft - 1) (rem.length : Int) }) := by
  subst hsh hrem hog
  rw [iterateShafts, h]
  dsimp only
  rw [if_neg hfin, ← hni, ← hno, if_neg hlive, if_pos hskip]

/-- Shape of iterateShafts on a non-final frame that expands a child frame. -/
theorem iterateShafts_eq_child (g : GearTrainPermutations) (f : PermutationStackFrame)
    (rest : List PermutationStackFrame) (ni no : Nat) (og : ℚ) (rem : List ℚ)
    (sh : List Shaft) (h : g.permutationStack = f :: rest)
    (hfin : ¬ ((f.currentShaft : Int) = ((g.shafts.length : Int) - 1)))
    (hni : ni = if f.availableGears.length ≤ f.outputIndex then f.inputIndex + 1
      else f.inputIndex)
    (hno : no = if f.availableGears.length ≤ f.outputIndex then 0 else f.outputIndex)
    (hlive : ¬ f.availableGears.length ≤ ni)
    (hog : og = if ni = no then 0 else f.availableGears.getD no 0)
    (hrem : rem = if ni = no then f.availableGears.eraseIdx ni
      else if no < ni then (f.availableGears.eraseIdx ni).eraseIdx no
      else (f.availableGears.eraseIdx ni).eraseIdx (no - 1))
    (hsh : sh = g.shafts.set f.currentShaft
      (Shaft.make (f.availableGears.getD ni 0) og g.spacerSize))
    (hnoskip : ¬ (0 < no ∧ 0 < og ∧
      f.availableGears.getD (no - 1) 0 = f.availableGears.getD no 0)) :
    iterateShafts g = (false, { g with
      shafts := sh,
      permutationStack :=
        { availableGears := rem, currentShaft := f.currentShaft + 1,
          inputIndex := 0, outputIndex := 0 } ::
        { availableGears := f.availableGears, currentShaft := f.currentShaft,
          inputIndex := ni, outputIndex := no + 1 } :: rest }) := by
  subst hsh hrem hog
  rw [iterateShafts, h]
  dsimp only
  rw [if_neg hfin, ← hni, ← hno, if_neg hlive, if_neg hnoskip]

/-- The iterateShafts step preserves the engine invariant. -/
theorem iterateShafts_inv (g : GearTrainPermutations) (h : EngineInv g) :
    EngineInv (iterateShafts g).2 := by
  obtain ⟨hlen, hidx, hwf, heq, htr, hok⟩ := h
  cases hstack : g.permutationStack with
  | nil =>
    rw [iterateShafts_eq_nil g hstack]
    exact ⟨hlen, hidx, hwf, heq, htr, hok⟩
  | cons f rest =>
    have hfwf : 1 ≤ f.currentShaft ∧ f.currentShaft ≤ g.shafts.length - 1 :=
      hwf f (by rw [hstack]; exact List.mem_cons_self f rest)
    have hwrest : ∀ f2 ∈ rest, 1 ≤ f2.currentShaft ∧ f2.currentShaft ≤ g.shafts.length - 1 :=
      fun f2 hf2 => hwf f2 (by rw [hstack]; exact List.mem_cons_of_mem f hf2)
    rw [hstack, stackWeight_cons] at heq
    by_cases hfin : (f.currentShaft : Int) = ((g.shafts.length : Int) - 1)
    · -- final-shaft frame: the whole pool is consumed in one call
      rw [iterateShafts_eq_final g f rest hstack hfin]
      dsimp only
      have hc : f.currentShaft = g.shafts.length - 1 := by omega
      have hspec := finalShaftLoop_spec f.availableGears f.currentShaft
        (f.availableGears.length) 0 { g with permutationStack := rest }
        (by omega) hc hfwf.1 hlen
      unfold FinalLoopSpec at hspec
      obtain ⟨s1, s2, s3, s4, s5, s6, s7, s8, s9, s10, s11⟩ := hspec
      set r := finalShaftLoop { g with permutationStack := rest }
        f.availableGears f.currentShaft 0 with hrdef
      have t1 : r.foundSolutions + r.skippedSolutions + r.discardedSolutions
          = g.foundSolutions + g.skippedSolutions + g.discardedSolutions
            + (f.availableGears.length : Int) := s1
      have t2 : (r.gearTrains.length : Int) - r.foundSolutions
          = (g.gearTrains.length : Int) - g.foundSolutions := s2
      have t3 : r.permutationStack = rest := s3
      have t4 : r.inputGearIndex = g.inputGearIndex := s4
      have t5 : r.permutationCount = g.permutationCount := s5
      have t6 : r.shafts.length = g.shafts.length := s6
      have t7 : r.changeGearSet = g.changeGearSet := s7
      have t8 : r.inputGearSet = g.inputGearSet := s8
      have t9 : r.sharedInputGearSet = g.sharedInputGearSet := s9
      have t10 : r.addendum = g.addendum := s10
      have t11 : TrainsOk g.shafts.length g.addendum g.gearTrains →
          TrainsOk g.shafts.length g.addendum r.gearTrains := s11
      have hWf : frameWeight g.shafts.length f = (f.availableGears.length : Int) := by
        unfold frameWeight
        rw [if_pos hfin]
      refine ⟨?_, ?_, ?_, ?_, ?_, ?_⟩
      · rw [t6]
        exact hlen
      · rw [t4, t9, t7, t8]
        exact hidx
      · rw [t3, t6]
        exact hwrest
      · rw [t3, t4, t5, t6, t7, t8, t9]
        rw [hWf] at heq
        omega
      · omega
      · rw [t6, t10]
        exact t11 hok
    · -- non-final frame
      obtain ⟨hfwf1, hfwf2⟩ := hfwf
      by_cases hdead : f.availableGears.length ≤
          (if f.availableGears.length ≤ f.outputIndex then f.inputIndex + 1 else f.inputIndex)
      · rw [iterateShafts_eq_dead g f rest _ hstack hfin rfl hdead]
        dsimp only
        have hWf : frameWeight g.shafts.length f = 0 := by
          unfold frameWeight
          rw [if_neg hfin, remWeight_eq_core]
          exact remWeightCore_zero _ _ _ _ _ hdead
        rw [hWf] at heq
        unfold EngineInv
        dsimp only
        exact ⟨hlen, hidx, hwrest, by omega, htr, hok⟩
      · -- a live pair is processed
        set ni := (if f.availableGears.length ≤ f.outputIndex then f.inputIndex + 1
          else f.inputIndex) with hni
        set no := (if f.availableGears.length ≤ f.outputIndex then 0 else f.outputIndex) with hno
        set og := (if ni = no then (0 : ℚ) else f.availableGears.getD no 0) with hog
        set rem := (if ni = no then f.availableGears.eraseIdx ni
          else if no < ni then (f.availableGears.eraseIdx ni).eraseIdx no
          else (f.availableGears.eraseIdx ni).eraseIdx (no - 1)) with hrem
        set sh := g.shafts.set f.currentShaft
          (Shaft.make (f.availableGears.getD ni 0) og g.spacerSize) with hsh
        set W1 := calculatePermutationCount (g.shafts.length - f.currentShaft - 1)
          ((f.availableGears.length : Int) - 1) with hW1
        set W2 := calculatePermutationCount (g.shafts.length - f.currentShaft - 1)
          ((f.availableGears.length : Int) - 2) with hW2
        have hni_lt : ni < f.availableGears.length := by omega
        have hno_lt : no < f.availableGears.length := by
          rcases le_or_lt f.availableGears.length f.outputIndex with hw | hw
          · have hv : no = 0 := by rw [hno, if_pos hw]
            omega
          · have hv : no = f.outputIndex := by rw [hno, if_neg (not_le.mpr hw)]
            omega
        have hshlen : sh.length = g.shafts.length := by
          rw [hsh]
          exact List.length_set g.shafts f.currentShaft _
        have hfw : frameWeight g.shafts.length f
            = (if ni = no then W1 else W2)
              + remWeight f.availableGears.length W1 W2 ni (no + 1) := by
          unfold frameWeight
          rw [if_neg hfin, remWeight_eq_core, ← hni, ← hno, ← hW1, ← hW2]
          exact remWeightCore_step _ _ _ _ _ hni_lt hno_lt
        have hfw2 : frameWeight g.shafts.length
            { availableGears := f.availableGears, currentShaft := f.currentShaft,
              inputIndex := ni, outputIndex := no + 1 }
            = remWeight f.availableGears.length W1 W2 ni (no + 1) := by
          unfold frameWeight
          dsimp only
          rw [if_neg hfin, ← hW1, ← hW2]
        have hremlen2 : ¬ (ni = no) → rem.length = f.availableGears.length - 2 := by
          intro hne
          have h1 : (f.availableGears.eraseIdx ni).length = f.availableGears.length - 1 :=
            List.length_eraseIdx_of_lt hni_lt
          rw [hrem, if_neg hne]
          rcases lt_or_ge no ni with hlt | hge
          · rw [if_pos hlt, List.length_eraseIdx_of_lt (by rw [h1]; omega), h1]
            omega
          · rw [if_neg (not_lt.mpr hge), List.length_eraseIdx_of_lt (by rw [h1]; omega), h1]
            omega
        by_cases hskip : 0 < no ∧ 0 < og ∧
            f.availableGears.getD (no - 1) 0 = f.availableGears.getD no 0
        · -- duplicate output gear: counted as skipped
          have hne : ¬ (ni = no) := by
            intro hhh
            have h01 := hskip.2.1
            rw [hog, if_pos hhh] at h01
            exact lt_irrefl 0 h01
          have hremlen := hremlen2 hne
          have hgc2 : 2 ≤ f.availableGears.length := by omega
          rw [iterateShafts_eq_skip g f rest ni no og rem sh hstack hfin hni hno hdead hog
            hrem hsh hskip]
          dsimp only
          unfold EngineInv
          dsimp only
          have hcalc : calculatePermutationCount (g.shafts.length - f.currentShaft - 1)
              (rem.length : Int) = W2 := by
            rw [hremlen]
            have hcast : ((f.availableGears.length - 2 : Nat) : Int)
                = (f.availableGears.length : Int) - 2 := by omega
            rw [hcast, hW2]
          rw [if_neg hne] at hfw
          rw [hfw] at heq
          refine ⟨?_, hidx, ?_, ?_, htr, ?_⟩
          · rw [hshlen]
            exact hlen
          · rw [hshlen]
            intro f2 hf2
            rcases List.mem_cons.mp hf2 with hf2 | hf2
            · subst hf2
              exact ⟨hfwf1, hfwf2⟩
            · exact hwrest f2 hf2
          · rw [hshlen, stackWeight_cons, hfw2, hcalc]
            omega
          · rw [hshlen]
            exact hok
        · -- expand a child frame for the next shaft
          have hchild : frameWeight g.shafts.length
              { availableGears := rem, currentShaft := f.currentShaft + 1,
                inputIndex := 0, outputIndex := 0 }
              = (if ni = no then W1 else W2) := by
            have hcw2 : f.currentShaft + 1 ≤ g.shafts.length - 1 := by omega
            rw [frameWeight_fresh g.shafts.length (f.currentShaft + 1) rem
              (by omega) hcw2 hlen]
            have hsub : g.shafts.length - (f.currentShaft + 1)
                = g.shafts.length - f.currentShaft - 1 := by omega
            rw [hsub]
            by_cases hne2 : ni = no
            · rw [if_pos hne2]
              have hr1 : rem.length = f.availableGears.length - 1 := by
                rw [hrem, if_pos hne2]
                exact List.length_eraseIdx_of_lt hni_lt
              rw [hr1]
              have hcast : ((f.availableGears.length - 1 : Nat) : Int)
                  = (f.availableGears.length : Int) - 1 := by omega
              rw [hcast, hW1]
            · rw [if_neg hne2]
              have hr1 := hremlen2 hne2
              have hgc2 : 2 ≤ f.availableGears.length := by omega
              rw [hr1]
              have hcast : ((f.availableGears.length - 2 : Nat) : Int)
                  = (f.availableGears.length : Int) - 2 := by omega
              rw [hcast, hW2]
          rw [iterateShafts_eq_child g f rest ni no og rem sh hstack hfin hni hno hdead hog
            hrem hsh hskip]
          dsimp only
          unfold EngineInv
          dsimp only
          rw [hfw] at heq
          refine ⟨?_, hidx, ?_, ?_, htr, ?_⟩
          · rw [hshlen]
            exact hlen
          · rw [hshlen]
            intro f2 hf2
            rcases List.mem_cons.mp hf2 with hf2 | hf2
            · subst hf2
              refine ⟨?_, ?_⟩
              · show 1 ≤ f.currentShaft + 1
                omega
              · show f.currentShaft + 1 ≤ g.shafts.length - 1
                omega
            · rcases List.mem_cons.mp hf2 with hf2 | hf2
              · subst hf2
                exact ⟨hfwf1, hfwf2⟩
              · exact hwrest f2 hf2
          · rw [hshlen, stackWeight_cons, stackWeight_cons, hfw2, hchild]
            omega
          · rw [hshlen]
            exact hok

/-- Removing the first occurrence of a present value shortens the list by
one. -/
theorem spliceFirst_length (l : List ℚ) (x : ℚ) (h : x ∈ l) :
    (spliceFirst l x).length = l.length - 1 := by
  induction l with
  | nil => cases h
  | cons a t ih =>
    unfold spliceFirst
    by_cases hax : a = x
    · rw [if_pos hax]
      simp
    · rw [if_neg hax]
      have hxt : x ∈ t := by
        rcases List.mem_cons.mp h with hh | hh
        · exact absurd hh.symm hax
        · exact hh
      have ht1 : 1 ≤ t.length := List.length_pos.mpr (List.ne_nil_of_mem hxt)
      rw [List.length_cons, List.length_cons, ih hxt]
      omega

/-- setupCalculation establishes the engine invariant on a fresh engine. -/
theorem setupCalculation_inv (g : GearTrainPermutations) (h2 : 2 ≤ g.shaftCount)
    (hempty : g.gearTrains = []) : EngineInv (setupCalculation g) := by
  unfold setupCalculation EngineInv
  dsimp only
  refine ⟨?_, Nat.zero_le _, ?_, ?_, ?_, ?_⟩
  · rw [List.length_replicate]
    exact h2
  · intro f hf
    exact absurd hf (List.not_mem_nil f)
  · cases hs : g.sharedInputGearSet <;>
      simp [hs, stackWeight, seedWeight]
  · rw [hempty]
    rfl
  · rw [hempty]
    intro t ht
    exact absurd ht (List.not_mem_nil t)

/-- stackWeight of an empty stack. -/
theorem stackWeight_nil (len : Nat) : stackWeight len [] = 0 := by
  simp [stackWeight]

/-- The iterate step preserves the engine invariant. -/
theorem iterate_inv (g : GearTrainPermutations) (h : EngineInv g) : EngineInv (iterate g).2 := by
  by_cases hdone : (firstGearSet g).length ≤ g.inputGearIndex ∧ g.permutationStack.length ≤ 0
  · rw [iterate, if_pos hdone]
    exact h
  · rw [iterate, if_neg hdone]
    by_cases hbusy : 0 < g.permutationStack.length
    · rw [if_pos hbusy]
      exact iterateShafts_inv g h
    · rw [if_neg hbusy]
      have hstack : g.permutationStack = [] := List.length_eq_zero.mp (by omega)
      have hidxlt : g.inputGearIndex < (firstGearSet g).length := by
        rcases not_and_or.mp hdone with hcon | hcon
        · exact not_le.mp hcon
        · exact absurd (by omega : g.permutationStack.length ≤ 0) hcon
      rw [if_pos hidxlt]
      dsimp only
      apply iterateShafts_inv
      obtain ⟨hlen, hidx, hwf, heq, htr, hok⟩ := h
      unfold EngineInv
      dsimp only
      set gear := (firstGearSet g).getD g.inputGearIndex 0 with hgear
      set avail := (if g.sharedInputGearSet = true
        then spliceFirst g.changeGearSet gear else g.changeGearSet) with havail
      have hsl : (g.shafts.set 0 (Shaft.make gear 0 g.inputAdjacentSize)).length
          = g.shafts.length := List.length_set g.shafts 0 _
      have hidxlt2 : g.inputGearIndex <
          (if g.sharedInputGearSet = true then g.changeGearSet else g.inputGearSet).length :=
        hidxlt
      refine ⟨?_, ?_, ?_, ?_, htr, ?_⟩
      · rw [hsl]
        exact hlen
      · omega
      · intro f2 hf2
        rw [List.mem_singleton] at hf2
        subst hf2
        refine ⟨Nat.le_refl 1, ?_⟩
        show 1 ≤ (g.shafts.set 0 (Shaft.make gear 0 g.inputAdjacentSize)).length - 1
        rw [hsl]
        omega
      · rw [hsl, stackWeight_cons, stackWeight_nil, add_zero]
        rw [frameWeight_fresh g.shafts.length 1 avail (Nat.le_refl 1) (by omega) hlen]
        have hseed : calculatePermutationCount (g.shafts.length - 1) (avail.length : Int)
            = seedWeight g.shafts.length g.sharedInputGearSet g.changeGearSet.length := by
          unfold seedWeight
          cases hs : g.sharedInputGearSet
          · rw [havail, hs]
            simp
          · have hfgc : firstGearSet g = g.changeGearSet := by
              unfold firstGearSet
              rw [hs]
              simp
            have hgmem : gear ∈ g.changeGearSet := by
              rw [hgear, hfgc]
              rw [List.getD_eq_getElem _ _ (by rw [← hfgc]; exact hidxlt)]
              exact List.getElem_mem _
            have hc1 : 1 ≤ g.changeGearSet.length :=
              List.length_pos.mpr (List.ne_nil_of_mem hgmem)
            rw [havail, hs]
            simp only [if_pos rfl, reduceIte]
            rw [spliceFirst_length _ _ hgmem]
            have hcast : ((g.changeGearSet.length - 1 : Nat) : Int)
                = (g.changeGearSet.length : Int) - 1 := by omega
            rw [hcast]
        rw [hseed]
        rw [hstack, stackWeight_nil] at heq
        have hsplit : (((if g.sharedInputGearSet = true then g.changeGearSet
              else g.inputGearSet).length - g.inputGearIndex : Nat) : Int)
            = (((if g.sharedInputGearSet = true then g.changeGearSet
              else g.inputGearSet).length - (g.inputGearIndex + 1) : Nat) : Int) + 1 := by
          omega
        rw [hsplit, add_one_mul] at heq
        omega
      · rw [hsl]
        exact hok

/-- stepN preserves the engine invariant. -/
theorem stepN_inv : ∀ (n : Nat) (g : GearTrainPermutations),
    EngineInv g → EngineInv (stepN n g)
  | 0, _, h => h
  | n + 1, g, h => stepN_inv n (iterate g).2 (iterate_inv g h)

/-- iterateShafts only reports completion on an empty stack. -/
theorem iterateShafts_fst_ne (g : GearTrainPermutations) (h : g.permutationStack ≠ []) :
    (iterateShafts g).1 = false := by
  cases hstack : g.permutationStack with
  | nil => exact absurd hstack h
  | cons f rest =>
    rw [iterateShafts, hstack]
    dsimp only
    repeat' split
    all_goals rfl

/-- A true return from iterateShafts means the stack was empty. -/
theorem iterateShafts_true (g : GearTrainPermutations) (h : (iterateShafts g).1 = true) :
    g.permutationStack = [] := by
  cases hstack : g.permutationStack with
  | nil => rfl
  | cons f rest =>
    have hf := iterateShafts_fst_ne g (by rw [hstack]; exact List.cons_ne_nil f rest)
    rw [hf] at h
    exact absurd h (by simp)

/-- A true return from iterate means the first-shaft cursor is exhausted and
the stack is empty. -/
theorem iterate_true_of (g : GearTrainPermutations) (hdone : (iterate g).1 = true) :
    (firstGearSet g).length ≤ g.inputGearIndex ∧ g.permutationStack = [] := by
  by_cases hc : (firstGearSet g).length ≤ g.inputGearIndex ∧ g.permutationStack.length ≤ 0
  · exact ⟨hc.1, List.length_eq_zero.mp (by omega)⟩
  · exfalso
    rw [iterate, if_neg hc] at hdone
    by_cases hbusy : 0 < g.permutationStack.length
    · rw [if_pos hbusy] at hdone
      have hf := iterateShafts_fst_ne g
        (by intro hnil; rw [hnil] at hbusy; simp at hbusy)
      rw [hf] at hdone
      exact absurd hdone (by simp)
    · rw [if_neg hbusy] at hdone
      by_cases hlt : g.inputGearIndex < (firstGearSet g).length
      · rw [if_pos hlt] at hdone
        dsimp only at hdone
        have hnil := iterateShafts_true _ hdone
        dsimp only at hnil
        exact absurd hnil (List.cons_ne_nil _ _)
      · rw [if_neg hlt] at hdone
        exact absurd hdone (by simp)

/-- At completion, the invariant yields the counter identities. -/
theorem iterate_complete (g : GearTrainPermutations) (hinv : EngineInv g)
    (hdone : (iterate g).1 = true) :
    (g.gearTrains.length : Int) = g.foundSolutions ∧
    g.foundSolutions + g.skippedSolutions + g.discardedSolutions = g.permutationCount := by
  obtain ⟨hidx2, hstack⟩ := iterate_true_of g hdone
  obtain ⟨hlen, hidx, hwf, heq, htr, hok⟩ := hinv
  refine ⟨htr, ?_⟩
  rw [hstack, stackWeight_nil] at heq
  have hidx3 : (if g.sharedInputGearSet = true then g.changeGearSet
      else g.inputGearSet).length ≤ g.inputGearIndex := hidx2
  have hzero : ((if g.sharedInputGearSet = true then g.changeGearSet
      else g.inputGearSet).length - g.inputGearIndex : Nat) = 0 := by omega
  rw [hzero] at heq
  simpa using heq

/-- Claim C1: for every valid configuration (at least two shafts, non-empty
ascending gear pools with positive tooth counts) run from a fresh engine,
once the step-advance operation reports completion the number of GearTrains
in the results equals the found counter, and found + skipped + discarded
equals the theoretical permutation total computed at setup. -/
theorem claim_C1_counters (g : GearTrainPermutations)
    (hempty : g.gearTrains = [])
    (hshafts : 2 ≤ g.shaftCount)
    (hpool : g.changeGearSet ≠ [])
    (hsorted : List.Chain' (· ≤ ·) g.changeGearSet)
    (hpos : ∀ x ∈ g.changeGearSet, 0 < x)
    (hinput : g.sharedInputGearSet = false →
      g.inputGearSet ≠ [] ∧ List.Chain' (· ≤ ·) g.inputGearSet ∧ ∀ x ∈ g.inputGearSet, 0 < x)
    (n : Nat)
    (hdone : (iterate (stepN n (setupCalculation g))).1 = true) :
    ((stepN n (setupCalculation g)).gearTrains.length : Int)
        = (stepN n (setupCalculation g)).foundSolutions ∧
    (stepN n (setupCalculation g)).foundSolutions
        + (stepN n (setupCalculation g)).skippedSolutions
        + (stepN n (setupCalculation g)).discardedSolutions
      = (stepN n (setupCalculation g)).permutationCount :=
  iterate_complete _ (stepN_inv n _ (setupCalculation_inv g hshafts hempty)) hdone

/-- Claim C8: every GearTrain in the results of a run from a fresh engine
satisfies the interference postcondition: the interference predicate applied
to its second-to-last and last shafts with the configured addendum is
false. -/
theorem claim_C8_interference_post (g : GearTrainPermutations)
    (hempty : g.gearTrains = [])
    (hshafts : 2 ≤ g.shaftCount)
    (n : Nat) :
    ∀ t ∈ (stepN n (setupCalculation g)).gearTrains,
      2 ≤ t.shafts.length ∧
      ¬ shaftsInterfere (t.shafts.getD (t.shafts.length - 2) default)
        (t.shafts.getD (t.shafts.length - 1) default)
        (stepN n (setupCalculation g)).addendum := by
  have hinv := stepN_inv n _ (setupCalculation_inv g hshafts hempty)
  obtain ⟨hlen, hidx, hwf, heq, htr, hok⟩ := hinv
  intro t ht
  obtain ⟨h1, h2⟩ := hok t ht
  refine ⟨by omega, h2⟩


theorem dupRun0 : setupCalculation dupConfig = dupState0 := rfl

theorem dupRun1 : iterate dupState0 = (false, dupState1) := by
  have ha : iterate dupState0 = iterateShafts dupSeed1 := by
    rw [iterate, if_neg (by decide), if_neg (by decide), if_pos (by decide)]
    rfl
  have hb : iterateShafts dupSeed1
      = (false, finalShaftLoop { dupSeed1 with permutationStack := [] } [20] 1 0) :=
    iterateShafts_eq_final dupSeed1
      { availableGears := [20], currentShaft := 1, inputIndex := 0, outputIndex := 0 } []
      rfl (by decide)
  have hc : finalShaftLoop { dupSeed1 with permutationStack := [] } [20] 1 0
      = finalShaftLoop dupState1 [20] 1 1 := by
    rw [finalShaftLoop, dif_pos (by decide)]
    dsimp only
    rw [if_neg (by decide), if_neg (by decide)]
    have hcond : ¬ shaftsInterfere
        ((dupSeed1.shafts.set 1
          (Shaft.make (([20] : List ℚ).getD 0 0) 0 dupSeed1.spacerSize)).getD (1 - 1) default)
        ((dupSeed1.shafts.set 1
          (Shaft.make (([20] : List ℚ).getD 0 0) 0 dupSeed1.spacerSize)).getD 1 default)
        dupSeed1.addendum := by
      show ¬ shaftsInterfere dupShaft dupShaft (6 / 5)
      norm_num [shaftsInterfere, meshingDistance, nonMeshingDistance, dupShaft]
    rw [if_pos hcond]
    rfl
  have hd : finalShaftLoop dupState1 [20] 1 1 = dupState1 := by
    rw [finalShaftLoop, dif_neg (by decide)]
  rw [ha, hb, hc, hd]

theorem dupRun2 : iterate dupState1 = (false, dupState2) := by
  have ha : iterate dupState1 = iterateShafts dupSeed2 := by
    rw [iterate, if_neg (by decide), if_neg (by decide), if_pos (by decide)]
    rfl
  have hb : iterateShafts dupSeed2
      = (false, finalShaftLoop { dupSeed2 with permutationStack := [] } [20] 1 0) :=
    iterateShafts_eq_final dupSeed2
      { availableGears := [20], currentShaft := 1, inputIndex := 0, outputIndex := 0 } []
      rfl (by decide)
  have hc : finalShaftLoop { dupSeed2 with permutationStack := [] } [20] 1 0
      = finalShaftLoop dupState2 [20] 1 1 := by
    rw [finalShaftLoop, dif_pos (by decide)]
    dsimp only
    rw [if_neg (by decide), if_neg (by decide)]
    have hcond : ¬ shaftsInterfere
        ((dupSeed2.shafts.set 1
          (Shaft.make (([20] : List ℚ).getD 0 0) 0 dupSeed2.spacerSize)).getD (1 - 1) default)
        ((dupSeed2.shafts.set 1
          (Shaft.make (([20] : List ℚ).getD 0 0) 0 dupSeed2.spacerSize)).getD 1 default)
        dupSeed2.addendum := by
      show ¬ shaftsInterfere dupShaft dupShaft (6 / 5)
      norm_num [shaftsInterfere, meshingDistance, nonMeshingDistance, dupShaft]
    rw [if_pos hcond]
    rfl
  have hd : finalShaftLoop dupState2 [20] 1 1 = dupState2 := by
    rw [finalShaftLoop, dif_neg (by decide)]
  rw [ha, hb, hc, hd]

theorem dupRun3 : iterate dupState2 = (true, dupState2) := by
  rw [iterate, if_pos (by decide)]

theorem dupRun_stepN : stepN 2 (setupCalculation dupConfig) = dupState2 := by
  rw [dupRun0, show stepN 2 dupState0 = (iterate (iterate dupState0).2).2 from rfl, dupRun1,
    show ((false, dupState1) : Bool × GearTrainPermutations).2 = dupState1 from rfl, dupRun2]

/-- Claim C4 refutation by evaluation: on the valid duplicate-pool
configuration with change gears 20 and 20 and two shafts, the completed run
returns two GearTrains whose shaft sequences are equal gear-for-gear, so the
skip optimization does not prevent duplicate results when the duplicate gear
is chosen at the seed stage. -/
theorem claim_C4_duplicates :
    (iterate (stepN 2 (setupCalculation dupConfig))).1 = true ∧
    (stepN 2 (setupCalculation dupConfig)).gearTrains.map (fun t => t.shafts)
      = [[dupShaft, dupShaft], [dupShaft, dupShaft]] ∧
    dupConfig.changeGearSet = [20, 20] := by
  refine ⟨?_, ?_, rfl⟩
  · rw [dupRun_stepN, dupRun3]
  · rw [dupRun_stepN]
    show ([dupTrain, dupTrain].map (fun t => t.shafts)) = _
    simp [dupTrain, GearTrain.make_shafts]

/-- Witness for claim C1 on the concrete two-shaft duplicate-pool run. -/
theorem claim_C1_counters_witness :
    ((stepN 2 (setupCalculation dupConfig)).gearTrains.length : Int)
        = (stepN 2 (setupCalculation dupConfig)).foundSolutions ∧
    (stepN 2 (setupCalculation dupConfig)).foundSolutions
        + (stepN 2 (setupCalculation dupConfig)).skippedSolutions
        + (stepN 2 (setupCalculation dupConfig)).discardedSolutions
      = (stepN 2 (setupCalculation dupConfig)).permutationCount :=
  claim_C1_counters dupConfig rfl (by decide) (by decide)
    (by norm_num [List.chain'_cons, List.chain'_singleton, dupConfig,
      GearTrainPermutations.init])
    (by decide) (fun hcon => absurd hcon (by decide)) 2 (by rw [dupRun_stepN, dupRun3])

/-- Witness for claim C8: the first train of the concrete run satisfies the
interference postcondition. -/
theorem claim_C8_interference_post_witness :
    2 ≤ (((stepN 2 (setupCalculation dupConfig)).gearTrains.getD 0 default).shafts.length) ∧
    ¬ shaftsInterfere
      (((stepN 2 (setupCalculation dupConfig)).gearTrains.getD 0 default).shafts.getD
        ((((stepN 2 (setupCalculation dupConfig)).gearTrains.getD 0 default).shafts.length) - 2)
        default)
      (((stepN 2 (setupCalculation dupConfig)).gearTrains.getD 0 default).shafts.getD
        ((((stepN 2 (setupCalculation dupConfig)).gearTrains.getD 0 default).shafts.length) - 1)
        default)
      (stepN 2 (setupCalculation dupConfig)).addendum :=
  claim_C8_interference_post dupConfig rfl (by decide) 2
    ((stepN 2 (setupCalculation dupConfig)).gearTrains.getD 0 default)
    (by rw [dupRun_stepN]; exact List.mem_cons_self dupTrain [dupTrain])
